import Mathlib

/-!
Verification of the ESP32 WiFi AP/STA persistence firmware (`src/main/main.c`).

The embedding models C strings as `List Char` (the bytes before the NUL
terminator), and C pointers into a string as suffixes of that list, which is
exactly how `strstr`/`strchr` results are used by the source.
-/

/-- Configuration constants from `main.c`. -/
def MAX_RETRY : Nat := 5

def WIFI_NAME_SIZE : Nat := 32

def WIFI_PASS_SIZE : Nat := 64

/-- The NUL byte used as C string terminator. -/
def nulChar : Char := Char.ofNat 0

/-- `listLeads needle hay` is true when `needle` is an initial segment of `hay`. -/
def listLeads : List Char → List Char → Bool
  | [], _ => true
  | _ :: _, [] => false
  | a :: as, b :: bs => a = b && listLeads as bs

/-- C `strstr`: the first suffix of `hay` that starts with `needle`
(`none` when `needle` does not occur). -/
def strstr : List Char → List Char → Option (List Char)
  | hay, needle =>
    if listLeads needle hay then some hay
    else
      match hay with
      | [] => none
      | _ :: rest => strstr rest needle

/-- C `strchr`: the first suffix of `s` that starts with the character `c`. -/
def strchr : List Char → Char → Option (List Char)
  | [], _ => none
  | x :: rest, c => if x = c then some (x :: rest) else strchr rest c

/-- The bytes of a C string up to (excluding) the first NUL: how C reads a
buffer as a string. -/
def strFirst : List Char → List Char
  | [] => []
  | c :: rest => if c = nulChar then [] else c :: strFirst rest

/-- C `strncpy dest src n`: copies at most `n` bytes of the C string starting
at `src` into `dest`, padding with NUL when the source is shorter than `n`;
bytes of `dest` from position `n` on are untouched. -/
def strncpy (dest src : List Char) (n : Nat) : List Char :=
  (strFirst src).take n ++ List.replicate (n - (strFirst src).length) nulChar ++ dest.drop n

/-- The sanitization applied to one byte by `validate_and_extract_value`:
bytes with value below 32 become an underscore. -/
def sanitizeChar (c : Char) : Char := if c.toNat < 32 then '_' else c

/-- The in-place sanitization loop of `validate_and_extract_value`: positions
`0 ≤ i < n` of the buffer are sanitized, the rest is untouched. -/
def sanitizeBelow32 (l : List Char) (n : Nat) : List Char :=
  (l.take n).map sanitizeChar ++ l.drop n

/-- Embedding of `validate_and_extract_value` from `main.c` (lines 238-274).
Returns the C `bool` result together with the final content of the output
buffer; `output_size` is the capacity argument. -/
def validate_and_extract_value (json_str key : List Char) (output : List Char)
    (output_size : Nat) : Bool × List Char :=
  match strstr json_str key with
  | none => (false, output)
  | some s1 =>
    match strchr s1 ':' with
    | none => (false, output)
    | some s2 =>
      match strchr s2 '"' with
      | none => (false, output)
      | some s3 =>
        match strchr s3.tail '"' with
        | none => (false, output)
        | some s5 =>
          let key_len := s3.tail.length - s5.length
          if output_size ≤ key_len then (false, output)
          else
            let copied := strncpy output s3.tail key_len
            let terminated := copied.set key_len nulChar
            (true, sanitizeBelow32 terminated key_len)

/-- The raw value (bytes between the two quotes, before sanitization) that the
marker scan of `validate_and_extract_value` locates, independent of any
destination buffer; `none` when one of the four markers is absent. -/
def valueAt (json_str key : List Char) : Option (List Char) :=
  match strstr json_str key with
  | none => none
  | some s1 =>
    match strchr s1 ':' with
    | none => none
    | some s2 =>
      match strchr s2 '"' with
      | none => none
      | some s3 =>
        match strchr s3.tail '"' with
        | none => none
        | some s5 => some (s3.tail.take (s3.tail.length - s5.length))

/-- The key literal `"wifi_name"` (quotes included) passed by the TCP task. -/
def wifiNameKey : List Char := "\"wifi_name\"".toList

/-- The key literal `"wifi_password"` (quotes included) passed by the TCP task. -/
def wifiPassKey : List Char := "\"wifi_password\"".toList

/-- Occurrence check: does `needle` occur contiguously inside `hay`. -/
def occursIn (needle : List Char) : List Char → Bool
  | [] => listLeads needle []
  | c :: rest => listLeads needle (c :: rest) || occursIn needle rest

/-! ### Connection state machine (`wifi_event_handler`, `connect_wifi`) -/

/-- A (network name, secret) pair as held in the STA configuration. -/
structure Credential where
  ssid : List Char
  password : List Char
deriving DecidableEq

/-- The mutable state touched by the WiFi event handler and `connect_wifi`:
the global `retry_count`, the `WIFI_CONNECTED_BIT` of the event group, the
active STA configuration, and the last credential written to NVS. -/
structure WifiState where
  retry_count : Nat
  connected_bit : Bool
  sta_config : Credential
  nvs_saved : Option Credential
deriving DecidableEq

/-- The three event kinds handled by `wifi_event_handler`. -/
inductive WifiEvent where
  | staStart
  | staDisconnected
  | staGotIp
deriving DecidableEq

/-- Embedding of `wifi_event_handler` (`main.c` lines 112-149). `staStart`
only calls `esp_wifi_connect` (no state fields change); `staDisconnected`
retries while `retry_count < MAX_RETRY`, else clears the connected bit;
`staGotIp` persists the active STA configuration, sets the connected bit and
resets `retry_count` to 0. -/
def wifi_event_handler (s : WifiState) (e : WifiEvent) : WifiState :=
  match e with
  | .staStart => s
  | .staDisconnected =>
      if s.retry_count < MAX_RETRY then { s with retry_count := s.retry_count + 1 }
      else { s with connected_bit := false }
  | .staGotIp =>
      { s with nvs_saved := some s.sta_config, connected_bit := true, retry_count := 0 }

/-- The synchronous state updates performed by `connect_wifi` (`main.c` lines
157-169) before it blocks on the event group: the STA configuration receives
the given credential, truncated by `strncpy` to the field sizes; no other
modeled field — in particular not `retry_count` — is touched. -/
def connect_wifi_setup (s : WifiState) (ssid password : List Char) : WifiState :=
  { s with sta_config := ⟨ssid.take WIFI_NAME_SIZE, password.take WIFI_PASS_SIZE⟩ }

/-- An event of the whole system: a radio event delivered to the handler, or a
fresh connection request (`connect_wifi` being entered with a credential). -/
inductive SysEvent where
  | wifi : WifiEvent → SysEvent
  | request : List Char → List Char → SysEvent

def sys_step (s : WifiState) : SysEvent → WifiState
  | .wifi e => wifi_event_handler s e
  | .request n p => connect_wifi_setup s n p

/-- Boot state: `retry_count` is the zero-initialized global. -/
def init_wifi_state : WifiState := ⟨0, false, ⟨[], []⟩, none⟩

/-- All states reachable from boot under a sequence of system events. -/
def run_events (evs : List SysEvent) : WifiState :=
  evs.foldl sys_step init_wifi_state

/-! ### NVS credential store and boot logic (`nvs_read_wifi_data`, `app_main`) -/

/-- The two string slots of the `wifi_table` NVS namespace. -/
structure NvsStore where
  ssid_slot : Option (List Char)
  pass_slot : Option (List Char)
deriving DecidableEq

/-- Embedding of `nvs_read_wifi_data` (`main.c` lines 94-107): fails when a
key is absent, or when a stored string (content plus NUL terminator) does not
fit the caller's buffer; succeeds only when both fields are readable. -/
def nvs_read_wifi_data (st : NvsStore) : Option (List Char × List Char) :=
  match st.ssid_slot with
  | none => none
  | some s =>
    if WIFI_NAME_SIZE ≤ s.length then none
    else
      match st.pass_slot with
      | none => none
      | some p =>
        if WIFI_PASS_SIZE ≤ p.length then none
        else some (s, p)

/-- The boot decisions of `app_main` (`main.c` lines 421-432). -/
structure BootResult where
  attempted : Option (List Char × List Char)
  ap_started : Bool
  sta_connected : Bool
deriving DecidableEq

/-- Embedding of the credential-dependent part of `app_main`: read NVS; on a
readable record attempt a station connection (softAP only on failure); on a
failed read start softAP without any connection attempt. `connect_ok` is the
environment's answer to `connect_wifi` for a given credential. -/
def app_main_boot (store : NvsStore) (connect_ok : List Char → List Char → Bool) :
    BootResult :=
  match nvs_read_wifi_data store with
  | some (s, p) =>
      if connect_ok s p then ⟨some (s, p), false, true⟩
      else ⟨some (s, p), true, false⟩
  | none => ⟨none, true, false⟩

/-! ### TCP provisioning session (`tcp_server_task`) -/

/-- Per-connection state of the two-phase provisioning exchange: the
`ssid_received` flag and the two extraction buffers (`ssid[32]`,
`password[64]`). -/
structure Session where
  ssid_received : Bool
  ssid : List Char
  password : List Char
deriving DecidableEq

/-- The six responses `tcp_server_task` can send for a received message. -/
inductive Reply where
  | ssidAck
  | ssidInvalid
  | connectedSaved
  | connectedNotSaved
  | connectFailed
  | passInvalid
deriving DecidableEq

/-- Externally visible calls made while handling one message: the
`connect_wifi` invocation and the `nvs_write_wifi_data` invocation, each with
the C-string arguments passed. -/
structure Effects where
  request : Option (List Char × List Char)
  nvsWrite : Option (List Char × List Char)
deriving DecidableEq

def noEffects : Effects := ⟨none, none⟩

/-- Fresh session state: `ssid_received = false`, zeroed buffers. -/
def init_session : Session :=
  ⟨false, List.replicate WIFI_NAME_SIZE nulChar, List.replicate WIFI_PASS_SIZE nulChar⟩

/-- Embedding of the per-message body of `tcp_server_task` (`main.c` lines
338-371). `connect_ok` is the result of `connect_wifi` and `nvs_ok` the
result of `nvs_write_wifi_data`, both environment-determined. -/
def tcp_handle_message (st : Session) (msg : List Char) (connect_ok nvs_ok : Bool) :
    Session × Reply × Effects :=
  if st.ssid_received = false then
    let r := validate_and_extract_value msg wifiNameKey st.ssid WIFI_NAME_SIZE
    if r.fst then ({ st with ssid_received := true, ssid := r.snd }, .ssidAck, noEffects)
    else ({ st with ssid := r.snd }, .ssidInvalid, noEffects)
  else
    let r := validate_and_extract_value msg wifiPassKey st.password WIFI_PASS_SIZE
    if r.fst then
      let name := strFirst st.ssid
      let pass := strFirst r.snd
      if connect_ok then
        if nvs_ok then
          ({ st with password := r.snd, ssid_received := false }, .connectedSaved,
            ⟨some (name, pass), some (name, pass)⟩)
        else
          ({ st with password := r.snd, ssid_received := false }, .connectedNotSaved,
            ⟨some (name, pass), some (name, pass)⟩)
      else
        ({ st with password := r.snd, ssid_received := false }, .connectFailed,
          ⟨some (name, pass), none⟩)
    else ({ st with password := r.snd }, .passInvalid, noEffects)

/-- Iterating the session handler over a list of messages (state only). -/
def tcp_run (st : Session) (msgs : List (List Char)) (connect_ok nvs_ok : Bool) : Session :=
  msgs.foldl (fun s m => (tcp_handle_message s m connect_ok nvs_ok).fst) st

/-! ### Concrete inputs used by claim counterexamples and witnesses -/

/-- Concrete input for C1: the loose scan succeeds although the contiguous
pattern `"wifi_name":"<value>"` does not occur. -/
def c1CexBuf : List Char := "\"wifi_name\"x:\"abc\"".toList

/-- Concrete name-phase buffer holding the C string `Home`. -/
def homeSsidBuf : List Char := "Home".toList ++ List.replicate 28 nulChar

/-- Concrete message carrying a password value. -/
def passMsg : List Char := "\"wifi_password\":\"pw123\"".toList

/-! ### Base lemmas about the string primitives -/

theorem listLeads_iff (a b : List Char) : listLeads a b = true ↔ ∃ t, b = a ++ t := by
  induction a generalizing b with
  | nil => simp [listLeads]
  | cons x xs ih =>
    cases b with
    | nil =>
      simp only [listLeads]
      constructor
      · intro h; exact absurd h (by simp)
      · rintro ⟨t, ht⟩; exact absurd ht (by simp)
    | cons y ys =>
      simp only [listLeads, Bool.and_eq_true, decide_eq_true_eq, ih]
      constructor
      · rintro ⟨rfl, t, rfl⟩; exact ⟨t, rfl⟩
      · rintro ⟨t, ht⟩
        injection ht with h1 h2
        exact ⟨h1.symm, t, h2⟩

theorem listLeads_append (a t : List Char) : listLeads a (a ++ t) = true :=
  (listLeads_iff a (a ++ t)).mpr ⟨t, rfl⟩

theorem strstr_some (hay needle s : List Char) (h : strstr hay needle = some s) :
    ∃ p t, hay = p ++ s ∧ s = needle ++ t := by
  induction hay with
  | nil =>
    rw [strstr] at h
    by_cases hl : listLeads needle [] = true
    · simp only [hl, if_true, Option.some.injEq] at h
      obtain ⟨t, ht⟩ := (listLeads_iff needle []).mp hl
      exact ⟨[], t, by simp [h], by rw [← h, ht]⟩
    · simp [hl] at h
  | cons c rest ih =>
    rw [strstr] at h
    by_cases hl : listLeads needle (c :: rest) = true
    · simp only [hl, if_true, Option.some.injEq] at h
      obtain ⟨t, ht⟩ := (listLeads_iff needle (c :: rest)).mp hl
      exact ⟨[], t, by simp [h], by rw [← h, ht]⟩
    · simp only [hl, if_false, Bool.false_eq_true] at h
      obtain ⟨p, t, hp, hs⟩ := ih h
      exact ⟨c :: p, t, by simp [hp], hs⟩

theorem strchr_some (s t : List Char) (c : Char) (h : strchr s c = some t) :
    ∃ m r, s = m ++ c :: r ∧ t = c :: r ∧ c ∉ m := by
  induction s with
  | nil => simp [strchr] at h
  | cons x rest ih =>
    rw [strchr] at h
    by_cases hx : x = c
    · subst hx
      simp only [if_true, Option.some.injEq] at h
      exact ⟨[], rest, rfl, h.symm, by simp⟩
    · simp only [hx, if_false] at h
      obtain ⟨m, r, hs, ht, hm⟩ := ih h
      refine ⟨x :: m, r, by simp [hs], ht, ?_⟩
      simp only [List.mem_cons, not_or]
      exact ⟨fun hh => hx hh.symm, hm⟩

theorem take_len_append (a b : List Char) : (a ++ b).take a.length = a := by
  induction a with
  | nil => simp
  | cons x xs ih => simp [ih]

theorem drop_len_append (a b : List Char) : (a ++ b).drop a.length = b := by
  induction a with
  | nil => simp
  | cons x xs ih => simp [ih]

theorem set_len_append (a b : List Char) (x : Char) :
    (a ++ b).set a.length x = a ++ b.set 0 x := by
  induction a with
  | nil => simp
  | cons y ys ih => simp [List.set, ih]

theorem strFirst_append (a b : List Char) (ha : nulChar ∉ a) :
    strFirst (a ++ b) = a ++ strFirst b := by
  induction a with
  | nil => simp
  | cons x xs ih =>
    simp only [List.mem_cons, not_or] at ha
    have hx : x ≠ nulChar := fun hh => ha.1 hh.symm
    simp [strFirst, hx, ih ha.2]

theorem sanitizeChar_ne_nul (c : Char) : sanitizeChar c ≠ nulChar := by
  unfold sanitizeChar
  by_cases h : c.toNat < 32
  · simp only [h, if_true]
    decide
  · simp only [h, if_false]
    intro hc
    subst hc
    exact h (by decide)

theorem strFirst_sanitized (v w : List Char) :
    strFirst (v.map sanitizeChar ++ nulChar :: w) = v.map sanitizeChar := by
  have h : nulChar ∉ v.map sanitizeChar := by
    intro hmem
    obtain ⟨c, _, hc⟩ := List.mem_map.mp hmem
    exact sanitizeChar_ne_nul c hc
  rw [strFirst_append _ _ h, strFirst]
  simp

theorem occursIn_of_append (pat a rest hay : List Char) (h : hay = a ++ pat ++ rest) :
    occursIn pat hay = true := by
  induction a generalizing hay with
  | nil =>
    simp only [List.nil_append] at h
    subst h
    cases hp : pat ++ rest with
    | nil => rw [occursIn, ← hp]; exact listLeads_append pat rest
    | cons c cs => rw [occursIn, ← hp, listLeads_append]; simp
  | cons x xs ih =>
    subst h
    rw [List.cons_append, List.cons_append, occursIn, ih (xs ++ pat ++ rest) rfl]
    simp

/-- Splitting lemma: when `k ++ r = m ++ c :: t` and `c` does not occur in `k`,
the occurrence of `c` lies beyond `k`, so `m` extends `k`. -/
theorem leads_decomp (k : List Char) (c : Char) (hk : c ∉ k) :
    ∀ r m t : List Char, k ++ r = m ++ c :: t → ∃ mid, m = k ++ mid := by
  induction k with
  | nil => intro r m t _; exact ⟨m, by simp⟩
  | cons a k' ih =>
    intro r m t h
    simp only [List.mem_cons, not_or] at hk
    cases m with
    | nil =>
      simp only [List.nil_append, List.cons_append] at h
      injection h with h1 _
      exact absurd h1.symm hk.1
    | cons b m' =>
      simp only [List.cons_append] at h
      injection h with h1 h2
      obtain ⟨mid, hmid⟩ := ih hk.2 r m' t h2
      exact ⟨mid, by simp [h1.symm, hmid]⟩

example : (validate_and_extract_value ("\"wifi_name\":\"Home\"".toList) wifiNameKey
    (List.replicate 32 ' ') 32).fst = true := by decide

example : (validate_and_extract_value ("no markers here".toList) wifiNameKey
    (List.replicate 32 ' ') 32).fst = false := by decide

example : valueAt ("\"wifi_name\":\"Home\"".toList) wifiNameKey = some ("Home".toList) := by
  decide

example : (validate_and_extract_value ("\"wifi_name\"x:\"abc\"".toList) wifiNameKey
    (List.replicate 32 ' ') 32).fst = true := by decide

/-! ### Branch equations for the extractor -/

theorem validate_eq_none1 (json key out : List Char) (osize : Nat)
    (h1 : strstr json key = none) :
    validate_and_extract_value json key out osize = (false, out) := by
  unfold validate_and_extract_value
  rw [h1]

theorem validate_eq_none2 (json key out : List Char) (osize : Nat) (s1 : List Char)
    (h1 : strstr json key = some s1) (h2 : strchr s1 ':' = none) :
    validate_and_extract_value json key out osize = (false, out) := by
  unfold validate_and_extract_value
  rw [h1]
  dsimp only
  rw [h2]

theorem validate_eq_none3 (json key out : List Char) (osize : Nat) (s1 s2 : List Char)
    (h1 : strstr json key = some s1) (h2 : strchr s1 ':' = some s2)
    (h3 : strchr s2 '"' = none) :
    validate_and_extract_value json key out osize = (false, out) := by
  unfold validate_and_extract_value
  rw [h1]
  dsimp only
  rw [h2]
  dsimp only
  rw [h3]

theorem validate_eq_none4 (json key out : List Char) (osize : Nat) (s1 s2 s3 : List Char)
    (h1 : strstr json key = some s1) (h2 : strchr s1 ':' = some s2)
    (h3 : strchr s2 '"' = some s3) (h4 : strchr s3.tail '"' = none) :
    validate_and_extract_value json key out osize = (false, out) := by
  unfold validate_and_extract_value
  rw [h1]
  dsimp only
  rw [h2]
  dsimp only
  rw [h3]
  dsimp only
  rw [h4]

theorem validate_eq_found (json key out : List Char) (osize : Nat) (s1 s2 s3 s5 : List Char)
    (h1 : strstr json key = some s1) (h2 : strchr s1 ':' = some s2)
    (h3 : strchr s2 '"' = some s3) (h4 : strchr s3.tail '"' = some s5) :
    validate_and_extract_value json key out osize =
      if osize ≤ s3.tail.length - s5.length then (false, out)
      else (true, sanitizeBelow32
        ((strncpy out s3.tail (s3.tail.length - s5.length)).set
          (s3.tail.length - s5.length) nulChar)
        (s3.tail.length - s5.length)) := by
  unfold validate_and_extract_value
  rw [h1]
  dsimp only
  rw [h2]
  dsimp only
  rw [h3]
  dsimp only
  rw [h4]

theorem valueAt_eq_none1 (json key : List Char) (h1 : strstr json key = none) :
    valueAt json key = none := by
  unfold valueAt
  rw [h1]

theorem valueAt_eq_none2 (json key : List Char) (s1 : List Char)
    (h1 : strstr json key = some s1) (h2 : strchr s1 ':' = none) :
    valueAt json key = none := by
  unfold valueAt
  rw [h1]
  dsimp only
  rw [h2]

theorem valueAt_eq_none3 (json key : List Char) (s1 s2 : List Char)
    (h1 : strstr json key = some s1) (h2 : strchr s1 ':' = some s2)
    (h3 : strchr s2 '"' = none) :
    valueAt json key = none := by
  unfold valueAt
  rw [h1]
  dsimp only
  rw [h2]
  dsimp only
  rw [h3]

theorem valueAt_eq_none4 (json key : List Char) (s1 s2 s3 : List Char)
    (h1 : strstr json key = some s1) (h2 : strchr s1 ':' = some s2)
    (h3 : strchr s2 '"' = some s3) (h4 : strchr s3.tail '"' = none) :
    valueAt json key = none := by
  unfold valueAt
  rw [h1]
  dsimp only
  rw [h2]
  dsimp only
  rw [h3]
  dsimp only
  rw [h4]

theorem valueAt_eq_found (json key : List Char) (s1 s2 s3 s5 : List Char)
    (h1 : strstr json key = some s1) (h2 : strchr s1 ':' = some s2)
    (h3 : strchr s2 '"' = some s3) (h4 : strchr s3.tail '"' = some s5) :
    valueAt json key = some (s3.tail.take (s3.tail.length - s5.length)) := by
  unfold valueAt
  rw [h1]
  dsimp only
  rw [h2]
  dsimp only
  rw [h3]
  dsimp only
  rw [h4]

/-! ### Characterization of the extractor -/

theorem extract_fail_snd (json key out : List Char) (osize : Nat)
    (h : (validate_and_extract_value json key out osize).fst = false) :
    (validate_and_extract_value json key out osize).snd = out := by
  cases h1 : strstr json key with
  | none => rw [validate_eq_none1 json key out osize h1]
  | some s1 =>
  cases h2 : strchr s1 ':' with
  | none => rw [validate_eq_none2 json key out osize s1 h1 h2]
  | some s2 =>
  cases h3 : strchr s2 '"' with
  | none => rw [validate_eq_none3 json key out osize s1 s2 h1 h2 h3]
  | some s3 =>
  cases h4 : strchr s3.tail '"' with
  | none => rw [validate_eq_none4 json key out osize s1 s2 s3 h1 h2 h3 h4]
  | some s5 =>
  rw [validate_eq_found json key out osize s1 s2 s3 s5 h1 h2 h3 h4] at h ⊢
  by_cases h5 : osize ≤ s3.tail.length - s5.length
  · rw [if_pos h5]
  · rw [if_neg h5] at h
    simp at h

theorem extract_fst_iff (json key out : List Char) (osize : Nat) :
    (validate_and_extract_value json key out osize).fst = true ↔
      ∃ v, valueAt json key = some v ∧ v.length < osize := by
  cases h1 : strstr json key with
  | none =>
    rw [validate_eq_none1 json key out osize h1, valueAt_eq_none1 json key h1]
    simp
  | some s1 =>
  cases h2 : strchr s1 ':' with
  | none =>
    rw [validate_eq_none2 json key out osize s1 h1 h2, valueAt_eq_none2 json key s1 h1 h2]
    simp
  | some s2 =>
  cases h3 : strchr s2 '"' with
  | none =>
    rw [validate_eq_none3 json key out osize s1 s2 h1 h2 h3,
      valueAt_eq_none3 json key s1 s2 h1 h2 h3]
    simp
  | some s3 =>
  cases h4 : strchr s3.tail '"' with
  | none =>
    rw [validate_eq_none4 json key out osize s1 s2 s3 h1 h2 h3 h4,
      valueAt_eq_none4 json key s1 s2 s3 h1 h2 h3 h4]
    simp
  | some s5 =>
  rw [validate_eq_found json key out osize s1 s2 s3 s5 h1 h2 h3 h4,
    valueAt_eq_found json key s1 s2 s3 s5 h1 h2 h3 h4]
  have hlen : (s3.tail.take (s3.tail.length - s5.length)).length
      = s3.tail.length - s5.length := by
    rw [List.length_take]
    exact Nat.min_eq_left (Nat.sub_le _ _)
  by_cases h5 : osize ≤ s3.tail.length - s5.length
  · rw [if_pos h5]
    constructor
    · intro hc
      exact absurd hc (by simp)
    · rintro ⟨v, hv, hlt⟩
      injection hv with hv
      rw [← hv, hlen] at hlt
      omega
  · rw [if_neg h5]
    exact ⟨fun _ => ⟨_, rfl, by rw [hlen]; omega⟩, fun _ => rfl⟩

/-- Master lemma: a successful extraction exhibits the loose marker
decomposition of the input, identifies the extracted raw value, and (for a
NUL-free input and a large enough destination) gives the final content of the
destination buffer. -/
theorem extract_success_full (json key out : List Char) (osize : Nat)
    (hk : (':' : Char) ∉ key)
    (h : (validate_and_extract_value json key out osize).fst = true) :
    ∃ pre mid1 mid2 v post,
      json = pre ++ (key ++ (mid1 ++ (':' :: (mid2 ++ ('"' :: (v ++ ('"' :: post))))))) ∧
      valueAt json key = some v ∧ v.length < osize ∧
      (nulChar ∉ json → osize ≤ out.length →
        (validate_and_extract_value json key out osize).snd
          = v.map sanitizeChar ++ nulChar :: out.drop (v.length + 1)) := by
  cases h1 : strstr json key with
  | none => rw [validate_eq_none1 json key out osize h1] at h; exact absurd h (by simp)
  | some s1 =>
  cases h2 : strchr s1 ':' with
  | none => rw [validate_eq_none2 json key out osize s1 h1 h2] at h; exact absurd h (by simp)
  | some s2 =>
  cases h3 : strchr s2 '"' with
  | none =>
    rw [validate_eq_none3 json key out osize s1 s2 h1 h2 h3] at h
    exact absurd h (by simp)
  | some s3 =>
  cases h4 : strchr s3.tail '"' with
  | none =>
    rw [validate_eq_none4 json key out osize s1 s2 s3 h1 h2 h3 h4] at h
    exact absurd h (by simp)
  | some s5 =>
  rw [validate_eq_found json key out osize s1 s2 s3 s5 h1 h2 h3 h4] at h
  by_cases h5 : osize ≤ s3.tail.length - s5.length
  · rw [if_pos h5] at h
    exact absurd h (by simp)
  rw [if_neg h5] at h
  obtain ⟨p, t1, hjson, hs1⟩ := strstr_some json key s1 h1
  obtain ⟨m1, r2, hs1d, hs2, hm1⟩ := strchr_some s1 s2 ':' h2
  obtain ⟨mid1, hmid1⟩ := leads_decomp key ':' hk t1 m1 r2 (by rw [← hs1, hs1d])
  obtain ⟨m2, r3, hs2d, hs3, hm2⟩ := strchr_some s2 s3 '"' h3
  have htail : s3.tail = r3 := by rw [hs3]; rfl
  obtain ⟨v, post, hr3d, hs5, hv⟩ := strchr_some s3.tail s5 '"' h4
  have hm2cons : ∃ mid2, m2 = ':' :: mid2 := by
    cases m2 with
    | nil =>
      rw [hs2] at hs2d
      simp only [List.nil_append] at hs2d
      injection hs2d with hq _
      exact absurd hq (by decide)
    | cons b m2' =>
      rw [hs2] at hs2d
      simp only [List.cons_append] at hs2d
      injection hs2d with hb _
      exact ⟨m2', by rw [← hb]⟩
  obtain ⟨mid2, hmid2⟩ := hm2cons
  have hr2d : r2 = mid2 ++ '"' :: r3 := by
    rw [hmid2] at hs2d
    rw [hs2] at hs2d
    simp only [List.cons_append] at hs2d
    injection hs2d
  have hklen : s3.tail.length - s5.length = v.length := by
    rw [hr3d, hs5]
    simp
  have hdecomp : json =
      p ++ (key ++ (mid1 ++ (':' :: (mid2 ++ ('"' :: (v ++ ('"' :: post))))))) := by
    rw [hjson, hs1d, hmid1, hr2d, ← htail, hr3d]
    simp
  have hvalue : valueAt json key = some v := by
    rw [valueAt_eq_found json key s1 s2 s3 s5 h1 h2 h3 h4, hklen, hr3d, take_len_append]
  refine ⟨p, mid1, mid2, v, post, hdecomp, hvalue, by omega, ?_⟩
  intro hnul hout
  have hvlen : v.length < osize := by omega
  have hnulv : nulChar ∉ v := by
    intro hmem
    apply hnul
    rw [hdecomp]
    simp [hmem]
  rw [validate_eq_found json key out osize s1 s2 s3 s5 h1 h2 h3 h4, if_neg h5]
  rw [hklen]
  have hstr : strFirst s3.tail = v ++ '"' :: strFirst post := by
    rw [hr3d, strFirst_append v _ hnulv, strFirst]
    simp only [if_neg (by decide : ('"' : Char) = nulChar → False)]
  have hcopy : strncpy out s3.tail v.length = v ++ out.drop v.length := by
    unfold strncpy
    rw [hstr]
    have h6 : (v ++ '"' :: strFirst post).take v.length = v := take_len_append _ _
    have h7 : v.length - (v ++ '"' :: strFirst post).length = 0 := by
      simp only [List.length_append, List.length_cons]
      omega
    rw [h6, h7]
    simp
  rw [hcopy, set_len_append]
  have hdrop : out.drop v.length = out[v.length] :: out.drop (v.length + 1) :=
    List.drop_eq_getElem_cons (by omega)
  rw [hdrop]
  simp only [List.set]
  unfold sanitizeBelow32
  rw [take_len_append, drop_len_append]


theorem sys_step_retry_le (s : WifiState) (e : SysEvent)
    (h : s.retry_count ≤ MAX_RETRY) : (sys_step s e).retry_count ≤ MAX_RETRY := by
  cases e with
  | wifi we =>
    cases we with
    | staStart => exact h
    | staDisconnected =>
      by_cases hlt : s.retry_count < MAX_RETRY
      · simp only [sys_step, wifi_event_handler, if_pos hlt]
        omega
      · simp only [sys_step, wifi_event_handler, if_neg hlt]
        exact h
    | staGotIp => simp [sys_step, wifi_event_handler]
  | request n p => exact h

theorem foldl_retry_le (evs : List SysEvent) (s : WifiState)
    (h : s.retry_count ≤ MAX_RETRY) :
    (evs.foldl sys_step s).retry_count ≤ MAX_RETRY := by
  induction evs generalizing s with
  | nil => exact h
  | cons e rest ih => exact ih (sys_step s e) (sys_step_retry_le s e h)


/-! ### Claim C1 -/


/-- C1 counterexample: on the buffer `"wifi_name"x:"abc"` the extractor
succeeds, yet the buffer does not contain the contiguous pattern
`<key>:"<value>"` for any value, so "lacks the pattern implies not-found"
fails as stated. -/
theorem C1_counterexample :
    (validate_and_extract_value c1CexBuf wifiNameKey (List.replicate 32 ' ') 32).fst = true ∧
    ¬ ∃ v a b, c1CexBuf = a ++ (wifiNameKey ++ ':' :: '"' :: (v ++ ['"'])) ++ b := by
  refine ⟨by decide, ?_⟩
  rintro ⟨v, a, b, h⟩
  have h3 : occursIn (wifiNameKey ++ [':']) c1CexBuf = true :=
    occursIn_of_append (wifiNameKey ++ [':']) a (('"' :: (v ++ ['"'])) ++ b) c1CexBuf
      (by rw [h]; simp)
  exact absurd h3 (by decide)

/-- C1 (amended): if the buffer lacks every loose marker occurrence — the key
followed (possibly with intervening bytes) by a colon, then an opening quote,
then a closing quote — the extractor returns not-found; equivalently, success
implies such a marker decomposition exists. -/
theorem C1_theorem (json key out : List Char) (osize : Nat)
    (hk : (':' : Char) ∉ key)
    (h : ¬ ∃ pre mid1 mid2 v post,
      json = pre ++ (key ++ (mid1 ++ (':' :: (mid2 ++ ('"' :: (v ++ ('"' :: post)))))))) :
    (validate_and_extract_value json key out osize).fst = false := by
  cases hb : (validate_and_extract_value json key out osize).fst with
  | false => rfl
  | true =>
    obtain ⟨pre, mid1, mid2, v, post, hdec, _, _, _⟩ :=
      extract_success_full json key out osize hk hb
    exact absurd ⟨pre, mid1, mid2, v, post, hdec⟩ h

/-- Witness for C1: a concrete buffer without any marker decomposition is
rejected. -/
theorem C1_theorem_witness :
    ((':' : Char) ∉ wifiNameKey) ∧
    (¬ ∃ pre mid1 mid2 v post, "no markers here".toList
      = pre ++ (wifiNameKey ++ (mid1 ++ (':' :: (mid2 ++ ('"' :: (v ++ ('"' :: post)))))))) ∧
    (validate_and_extract_value ("no markers here".toList) wifiNameKey
      (List.replicate 32 ' ') 32).fst = false := by
  have hne : ¬ ∃ pre mid1 mid2 v post, "no markers here".toList
      = pre ++ (wifiNameKey ++ (mid1 ++ (':' :: (mid2 ++ ('"' :: (v ++ ('"' :: post))))))) := by
    rintro ⟨pre, mid1, mid2, v, post, h⟩
    have h3 : occursIn wifiNameKey ("no markers here".toList) = true :=
      occursIn_of_append wifiNameKey pre
        (mid1 ++ (':' :: (mid2 ++ ('"' :: (v ++ ('"' :: post)))))) _ (by rw [h]; simp)
    exact absurd h3 (by decide)
  exact ⟨by decide, hne, C1_theorem _ _ _ _ (by decide) hne⟩

/-! ### Claim C2 -/

/-- C2: on success the destination buffer holds exactly the bytes between the
value's quotes with every byte below 32 replaced by `_`, followed by the NUL
terminator (the rest of the buffer beyond the terminator is untouched), and
read as a C string it is exactly the sanitized value. -/
theorem C2_theorem (json key out : List Char) (osize : Nat)
    (hk : (':' : Char) ∉ key) (hn : nulChar ∉ json) (ho : osize ≤ out.length)
    (h : (validate_and_extract_value json key out osize).fst = true) :
    ∃ pre mid1 mid2 v post,
      json = pre ++ (key ++ (mid1 ++ (':' :: (mid2 ++ ('"' :: (v ++ ('"' :: post))))))) ∧
      (validate_and_extract_value json key out osize).snd
        = v.map sanitizeChar ++ nulChar :: out.drop (v.length + 1) ∧
      strFirst (validate_and_extract_value json key out osize).snd = v.map sanitizeChar := by
  obtain ⟨pre, mid1, mid2, v, post, hdec, hval, hlen, hsnd⟩ :=
    extract_success_full json key out osize hk h
  have hs := hsnd hn ho
  exact ⟨pre, mid1, mid2, v, post, hdec, hs, by rw [hs]; exact strFirst_sanitized v _⟩

/-- Witness for C2 on a value containing a control byte (a tab). -/
theorem C2_theorem_witness :
    ((':' : Char) ∉ wifiNameKey) ∧
    (nulChar ∉ "\"wifi_name\":\"ab\tc\"".toList) ∧
    (32 ≤ (List.replicate 32 ' ').length) ∧
    (validate_and_extract_value ("\"wifi_name\":\"ab\tc\"".toList) wifiNameKey
      (List.replicate 32 ' ') 32).fst = true ∧
    (∃ pre mid1 mid2 v post,
      "\"wifi_name\":\"ab\tc\"".toList
        = pre ++ (wifiNameKey ++ (mid1 ++ (':' :: (mid2 ++ ('"' :: (v ++ ('"' :: post))))))) ∧
      (validate_and_extract_value ("\"wifi_name\":\"ab\tc\"".toList) wifiNameKey
        (List.replicate 32 ' ') 32).snd
        = v.map sanitizeChar ++ nulChar :: (List.replicate 32 ' ').drop (v.length + 1) ∧
      strFirst (validate_and_extract_value ("\"wifi_name\":\"ab\tc\"".toList) wifiNameKey
        (List.replicate 32 ' ') 32).snd = v.map sanitizeChar) :=
  ⟨by decide, by decide, by decide, by decide,
    C2_theorem _ _ _ _ (by decide) (by decide) (by decide) (by decide)⟩

/-! ### Claim C3 -/

/-- C3: when any of the four markers is absent (the scan finds no raw value),
or when the raw value's length is at least the destination capacity, the
extractor returns not-found. -/
theorem C3_theorem (json key out : List Char) (osize : Nat)
    (h : valueAt json key = none ∨ ∃ v, valueAt json key = some v ∧ osize ≤ v.length) :
    (validate_and_extract_value json key out osize).fst = false := by
  cases hb : (validate_and_extract_value json key out osize).fst with
  | false => rfl
  | true =>
    obtain ⟨v, hv, hlt⟩ := (extract_fst_iff json key out osize).mp hb
    cases h with
    | inl hn => rw [hn] at hv; exact absurd hv (by simp)
    | inr hx =>
      obtain ⟨w, hw, hge⟩ := hx
      rw [hw] at hv
      injection hv with hv
      rw [hv] at hge
      omega

/-- Witness for C3, the boundary case: a value of length exactly the
destination capacity is rejected. -/
theorem C3_theorem_witness :
    (∃ v, valueAt ("\"wifi_name\":\"abcd\"".toList) wifiNameKey = some v ∧ 4 ≤ v.length) ∧
    (validate_and_extract_value ("\"wifi_name\":\"abcd\"".toList) wifiNameKey
      (List.replicate 4 ' ') 4).fst = false :=
  ⟨⟨"abcd".toList, by decide, by decide⟩,
    C3_theorem _ _ _ _ (Or.inr ⟨"abcd".toList, by decide, by decide⟩)⟩

/-! ### Claim C4 -/

/-- C4: in every state reachable from boot the retry counter stays at most
`MAX_RETRY` (5); it is reset to 0 by the address-acquired event; and a
disconnect arriving with the counter exhausted clears the connected signal
(reports Failed). -/
theorem C4_theorem (evs : List SysEvent) (s : WifiState) :
    (run_events evs).retry_count ≤ MAX_RETRY ∧
    (wifi_event_handler s .staGotIp).retry_count = 0 ∧
    (MAX_RETRY ≤ s.retry_count →
      (wifi_event_handler s .staDisconnected).connected_bit = false) := by
  refine ⟨foldl_retry_le evs init_wifi_state (Nat.zero_le _), rfl, ?_⟩
  intro h
  unfold wifi_event_handler
  rw [if_neg (by omega)]

/-- Witness for C4 at a concrete event trace and an exhausted-counter state. -/
theorem C4_theorem_witness :
    MAX_RETRY ≤ (WifiState.mk 5 true ⟨[], []⟩ none).retry_count ∧
    (run_events [SysEvent.wifi .staDisconnected]).retry_count ≤ MAX_RETRY ∧
    (wifi_event_handler ⟨5, true, ⟨[], []⟩, none⟩ .staGotIp).retry_count = 0 ∧
    (wifi_event_handler ⟨5, true, ⟨[], []⟩, none⟩ .staDisconnected).connected_bit = false := by
  have h := C4_theorem [SysEvent.wifi .staDisconnected] ⟨5, true, ⟨[], []⟩, none⟩
  exact ⟨by decide, h.1, h.2.1, h.2.2 (by decide)⟩

/-! ### Claim C5 -/

/-- C5 counterexample: a fresh connection request entered with the retry
counter at 3 leaves the counter at 3 — `connect_wifi` performs no reset
before the handshake. -/
theorem C5_counterexample :
    ¬ ((connect_wifi_setup ⟨3, false, ⟨[], []⟩, none⟩ ("Home".toList)
      ("secret123".toList)).retry_count = 0) := by
  decide

/-- C5 (amended): the retry counter is reset to 0 only on the
address-acquired event; a fresh connection request leaves it unchanged. -/
theorem C5_theorem (s : WifiState) (ssid password : List Char) :
    (connect_wifi_setup s ssid password).retry_count = s.retry_count ∧
    (wifi_event_handler s .staGotIp).retry_count = 0 :=
  ⟨rfl, rfl⟩

/-! ### Claim C6 -/

/-- C6: in the secret phase, a message from which a `wifi_password` value is
extracted triggers `connect_wifi (pending name, secret)`, the session returns
to the name phase regardless of outcome, and the reply is
connected-and-saved / connected-but-not-saved / connection-failed according to
the connection and store-write outcomes. -/
theorem C6_theorem (st : Session) (msg : List Char) (connect_ok nvs_ok : Bool)
    (hphase : st.ssid_received = true)
    (hext : (validate_and_extract_value msg wifiPassKey st.password WIFI_PASS_SIZE).fst
      = true) :
    (tcp_handle_message st msg connect_ok nvs_ok).fst.ssid_received = false ∧
    (tcp_handle_message st msg connect_ok nvs_ok).snd.snd.request
      = some (strFirst st.ssid,
        strFirst (validate_and_extract_value msg wifiPassKey st.password WIFI_PASS_SIZE).snd) ∧
    (tcp_handle_message st msg connect_ok nvs_ok).snd.fst
      = (if connect_ok then (if nvs_ok then Reply.connectedSaved else Reply.connectedNotSaved)
        else Reply.connectFailed) := by
  cases connect_ok <;> cases nvs_ok <;>
    simp [tcp_handle_message, hphase, hext]


/-- Witness for C6 at a concrete session and message (connected, store write
failing). -/
theorem C6_theorem_witness :
    (Session.mk true homeSsidBuf (List.replicate WIFI_PASS_SIZE nulChar)).ssid_received
      = true ∧
    (validate_and_extract_value passMsg wifiPassKey
      (List.replicate WIFI_PASS_SIZE nulChar) WIFI_PASS_SIZE).fst = true ∧
    ((tcp_handle_message ⟨true, homeSsidBuf, List.replicate WIFI_PASS_SIZE nulChar⟩
        passMsg true false).fst.ssid_received = false ∧
      (tcp_handle_message ⟨true, homeSsidBuf, List.replicate WIFI_PASS_SIZE nulChar⟩
        passMsg true false).snd.snd.request
        = some (strFirst homeSsidBuf,
          strFirst (validate_and_extract_value passMsg wifiPassKey
            (List.replicate WIFI_PASS_SIZE nulChar) WIFI_PASS_SIZE).snd) ∧
      (tcp_handle_message ⟨true, homeSsidBuf, List.replicate WIFI_PASS_SIZE nulChar⟩
        passMsg true false).snd.fst
        = (if true then (if false then Reply.connectedSaved else Reply.connectedNotSaved)
          else Reply.connectFailed)) :=
  ⟨rfl, by decide, C6_theorem ⟨true, homeSsidBuf, List.replicate WIFI_PASS_SIZE nulChar⟩
    passMsg true false rfl (by decide)⟩

/-! ### Claim C7 -/

/-- C7: a message on which extraction of the phase's key fails leaves the
session in the same phase with the matching error reply and no external
calls; consequently any sequence of bad messages leaves the state fixed. -/
theorem C7_theorem (st : Session) (msg : List Char) (msgs : List (List Char))
    (connect_ok nvs_ok : Bool) :
    (st.ssid_received = false →
      (validate_and_extract_value msg wifiNameKey st.ssid WIFI_NAME_SIZE).fst = false →
      tcp_handle_message st msg connect_ok nvs_ok = (st, .ssidInvalid, noEffects)) ∧
    (st.ssid_received = true →
      (validate_and_extract_value msg wifiPassKey st.password WIFI_PASS_SIZE).fst = false →
      tcp_handle_message st msg connect_ok nvs_ok = (st, .passInvalid, noEffects)) ∧
    ((∀ m ∈ msgs,
        (validate_and_extract_value m wifiNameKey st.ssid WIFI_NAME_SIZE).fst = false ∧
        (validate_and_extract_value m wifiPassKey st.password WIFI_PASS_SIZE).fst = false) →
      tcp_run st msgs connect_ok nvs_ok = st) := by
  have e1 : ∀ m : List Char, st.ssid_received = false →
      (validate_and_extract_value m wifiNameKey st.ssid WIFI_NAME_SIZE).fst = false →
      tcp_handle_message st m connect_ok nvs_ok = (st, .ssidInvalid, noEffects) := by
    intro m h0 hf
    have hsnd := extract_fail_snd m wifiNameKey st.ssid WIFI_NAME_SIZE hf
    simp only [tcp_handle_message, h0, if_true, hf, Bool.false_eq_true, if_false, hsnd]
    rw [← h0]
  have e2 : ∀ m : List Char, st.ssid_received = true →
      (validate_and_extract_value m wifiPassKey st.password WIFI_PASS_SIZE).fst = false →
      tcp_handle_message st m connect_ok nvs_ok = (st, .passInvalid, noEffects) := by
    intro m h0 hf
    have hsnd := extract_fail_snd m wifiPassKey st.password WIFI_PASS_SIZE hf
    simp only [tcp_handle_message, h0, Bool.true_eq_false, if_false, hf,
      Bool.false_eq_true, hsnd]
    rw [← h0]
  refine ⟨e1 msg, e2 msg, ?_⟩
  intro hall
  induction msgs with
  | nil => rfl
  | cons m rest ih =>
    have hm := hall m (by simp)
    have hstep : (tcp_handle_message st m connect_ok nvs_ok).fst = st := by
      cases h0 : st.ssid_received with
      | false => rw [e1 m h0 hm.1]
      | true => rw [e2 m h0 hm.2]
    have : tcp_run st (m :: rest) connect_ok nvs_ok = tcp_run st rest connect_ok nvs_ok := by
      unfold tcp_run
      rw [List.foldl_cons, hstep]
    rw [this]
    exact ih (fun m' hm' => hall m' (by simp [hm']))

/-- Witness for C7: a message without either key leaves a fresh session (and
a secret-phase session) unchanged, also when repeated. -/
theorem C7_theorem_witness :
    (init_session.ssid_received = false) ∧
    ((validate_and_extract_value ("hello".toList) wifiNameKey init_session.ssid
      WIFI_NAME_SIZE).fst = false) ∧
    (tcp_handle_message init_session ("hello".toList) true true
      = (init_session, .ssidInvalid, noEffects)) ∧
    (tcp_run init_session ["hello".toList, "world".toList] true true = init_session) := by
  have h := C7_theorem init_session ("hello".toList)
    ["hello".toList, "world".toList] true true
  refine ⟨rfl, by decide, h.1 rfl (by decide), h.2.2 ?_⟩
  intro m hm
  simp only [List.mem_cons, List.not_mem_nil, or_false] at hm
  rcases hm with rfl | rfl
  · exact ⟨by decide, by decide⟩
  · exact ⟨by decide, by decide⟩

/-! ### Claim C8 -/

/-- C8: at boot an unreadable credential record (missing or oversized field)
leads to access-point mode with no station attempt; a readable record leads
to a station attempt with that credential, and access-point mode starts
exactly when the attempt fails. -/
theorem C8_theorem (store : NvsStore) (connect_ok : List Char → List Char → Bool) :
    (nvs_read_wifi_data store = none →
      app_main_boot store connect_ok = ⟨none, true, false⟩) ∧
    (∀ s p, nvs_read_wifi_data store = some (s, p) →
      (app_main_boot store connect_ok).attempted = some (s, p) ∧
      ((app_main_boot store connect_ok).ap_started = true ↔ connect_ok s p = false)) := by
  constructor
  · intro h
    unfold app_main_boot
    rw [h]
  · intro s p h
    unfold app_main_boot
    rw [h]
    by_cases hc : connect_ok s p = true
    · simp [hc]
    · simp only [Bool.not_eq_true] at hc
      simp [hc]

/-- Witness for C8: an empty store boots to AP mode with no attempt; a full
store with a failing connection attempts and falls back to AP. -/
theorem C8_theorem_witness :
    (nvs_read_wifi_data ⟨none, none⟩ = none) ∧
    (app_main_boot ⟨none, none⟩ (fun _ _ => false) = ⟨none, true, false⟩) ∧
    (nvs_read_wifi_data ⟨some ("Home".toList), some ("pw".toList)⟩
      = some ("Home".toList, "pw".toList)) ∧
    ((app_main_boot ⟨some ("Home".toList), some ("pw".toList)⟩
        (fun _ _ => false)).attempted = some ("Home".toList, "pw".toList) ∧
      ((app_main_boot ⟨some ("Home".toList), some ("pw".toList)⟩
        (fun _ _ => false)).ap_started = true ↔ false = false)) :=
  ⟨by decide, (C8_theorem ⟨none, none⟩ (fun _ _ => false)).1 (by decide), by decide,
    (C8_theorem ⟨some ("Home".toList), some ("pw".toList)⟩ (fun _ _ => false)).2
      ("Home".toList) ("pw".toList) (by decide)⟩

/-! ### Claim C9 -/

/-- C9 counterexample: provisioning `"wifi_name":""` then `"wifi_password":""`
with the environment reporting a successful connection and store write makes
the handler issue an NVS write with both fields empty — no code path rejects
empty fields. -/
theorem C9_counterexample :
    (tcp_handle_message
      (tcp_handle_message init_session ("\"wifi_name\":\"\"".toList) true true).fst
      ("\"wifi_password\":\"\"".toList) true true).snd.snd.nvsWrite
      = some ([], []) := by
  decide

/-- C9 (amended): the provisioning handler issues a store write only when the
connection attempt reported success, and it writes exactly the pair it passed
to the connection request; no non-emptiness check is performed. -/
theorem C9_theorem (st : Session) (msg : List Char) (connect_ok nvs_ok : Bool)
    (w : List Char × List Char)
    (h : (tcp_handle_message st msg connect_ok nvs_ok).snd.snd.nvsWrite = some w) :
    connect_ok = true ∧
    (tcp_handle_message st msg connect_ok nvs_ok).snd.snd.request = some w := by
  by_cases h0 : st.ssid_received = false
  · by_cases hf : (validate_and_extract_value msg wifiNameKey st.ssid WIFI_NAME_SIZE).fst
      = true
    · simp [tcp_handle_message, h0, hf, noEffects] at h
    · simp only [Bool.not_eq_true] at hf
      simp [tcp_handle_message, h0, hf, noEffects] at h
  · simp only [Bool.not_eq_false] at h0
    by_cases hf : (validate_and_extract_value msg wifiPassKey st.password
        WIFI_PASS_SIZE).fst = true
    · cases connect_ok with
      | false => simp [tcp_handle_message, h0, hf] at h
      | true =>
        cases nvs_ok with
        | false =>
          simp only [tcp_handle_message, h0, Bool.true_eq_false, if_false, hf,
            if_true] at h ⊢
          exact ⟨by trivial, h⟩
        | true =>
          simp only [tcp_handle_message, h0, Bool.true_eq_false, if_false, hf,
            if_true] at h ⊢
          exact ⟨by trivial, h⟩
    · simp only [Bool.not_eq_true] at hf
      simp [tcp_handle_message, h0, hf, noEffects] at h

/-- Witness for C9 at a concrete session whose write succeeds. -/
theorem C9_theorem_witness :
    ((tcp_handle_message ⟨true, homeSsidBuf, List.replicate WIFI_PASS_SIZE nulChar⟩
      passMsg true true).snd.snd.nvsWrite = some ("Home".toList, "pw123".toList)) ∧
    (true = true ∧
      (tcp_handle_message ⟨true, homeSsidBuf, List.replicate WIFI_PASS_SIZE nulChar⟩
        passMsg true true).snd.snd.request = some ("Home".toList, "pw123".toList)) :=
  ⟨by decide, C9_theorem ⟨true, homeSsidBuf, List.replicate WIFI_PASS_SIZE nulChar⟩
    passMsg true true ("Home".toList, "pw123".toList) (by decide)⟩

/-! ### Claim C10 -/

/-- C10: whenever the extractor returns not-found, the destination buffer is
left byte-for-byte unchanged. -/
theorem C10_theorem (json key out : List Char) (osize : Nat)
    (h : (validate_and_extract_value json key out osize).fst = false) :
    (validate_and_extract_value json key out osize).snd = out :=
  extract_fail_snd json key out osize h

/-- Witness for C10 at a concrete rejected input. -/
theorem C10_theorem_witness :
    ((validate_and_extract_value ("nothing relevant".toList) wifiNameKey
      (List.replicate 32 'z') 32).fst = false) ∧
    ((validate_and_extract_value ("nothing relevant".toList) wifiNameKey
      (List.replicate 32 'z') 32).snd = List.replicate 32 'z') :=
  ⟨by decide, C10_theorem ("nothing relevant".toList) wifiNameKey
    (List.replicate 32 'z') 32 (by decide)⟩
